import Mathlib

/-!
Shallow embedding of the Extron MAV client
(`custom_components/extron_mav/extron_client.py`) and proofs about it.

The client is an asyncio Telnet client.  We model:
* response strings as Lean `String` (the code decodes with
  `decode('ascii', errors='ignore')`, so responses are plain text lines);
* Python's `in` / `startswith` string operations as executable functions on
  `List Char`;
* the client state (`_reader`, `_writer`, `_connected`) as a structure, and
  the outside world (connection success, the stream of read outcomes, write
  outcomes, and the wire of written lines) as a second structure that every
  operation threads explicitly;
* exceptions as `Except`.
-/

namespace ExtronMav

/-! ## String primitives (Python `in`, `startswith`, `strip`, `int`) -/

/-- `startsWithL p s` is Python `s.startswith(p)` on character lists. -/
def startsWithL : List Char → List Char → Bool
  | [], _ => true
  | _ :: _, [] => false
  | p :: ps, c :: cs => p == c && startsWithL ps cs

/-- `containsL p s` is Python `p in s` on character lists. -/
def containsL (p : List Char) : List Char → Bool
  | [] => startsWithL p []
  | c :: cs => startsWithL p (c :: cs) || containsL p cs

/-- Python `p in s` for strings. -/
def containsS (s p : String) : Bool := containsL p.toList s.toList

/-- Python `s.startswith(p)` for strings. -/
def startsS (s p : String) : Bool := startsWithL p.toList s.toList

theorem startsWithL_iff (p s : List Char) :
    startsWithL p s = true ↔ ∃ t, s = p ++ t := by
  induction p generalizing s with
  | nil => simp [startsWithL]
  | cons a ps ih =>
    cases s with
    | nil => simp [startsWithL]
    | cons c cs =>
      simp only [startsWithL, Bool.and_eq_true, beq_iff_eq, ih, List.cons_append,
        List.cons.injEq]
      constructor
      · rintro ⟨rfl, t, rfl⟩; exact ⟨t, rfl, rfl⟩
      · rintro ⟨t, rfl, rfl⟩; exact ⟨rfl, t, rfl⟩

theorem containsL_iff (p s : List Char) :
    containsL p s = true ↔ ∃ a b, s = a ++ p ++ b := by
  induction s with
  | nil =>
    simp only [containsL, startsWithL_iff]
    constructor
    · rintro ⟨t, h⟩
      have hp : p = [] := by cases p <;> simp_all
      exact ⟨[], [], by simp [hp]⟩
    · rintro ⟨a, b, h⟩
      have hp : p = [] := by cases a <;> cases p <;> simp_all
      exact ⟨[], by simp [hp]⟩
  | cons c cs ih =>
    simp only [containsL, Bool.or_eq_true, startsWithL_iff, ih]
    constructor
    · rintro (⟨t, h⟩ | ⟨a, b, h⟩)
      · exact ⟨[], t, by simpa using h⟩
      · exact ⟨c :: a, b, by simp [h]⟩
    · rintro ⟨a, b, h⟩
      cases a with
      | nil => exact Or.inl ⟨b, by simpa using h⟩
      | cons a' as =>
        right
        simp only [List.cons_append, List.cons.injEq] at h
        exact ⟨as, b, h.2⟩

/-- ASCII whitespace in the sense of Python `str.strip()`. -/
def isPyWhitespace (c : Char) : Bool :=
  c == ' ' || c == '\t' || c == '\n' || c == '\r' || c == '\x0b' || c == '\x0c'

/-- Python `s.strip()` on character lists. -/
def stripL (s : List Char) : List Char :=
  ((s.dropWhile isPyWhitespace).reverse.dropWhile isPyWhitespace).reverse

/-- Numeric value of an ASCII digit. -/
def digitVal (c : Char) : Nat := c.toNat - 48

/-- Accumulating decimal parse of a digit run (with Python 3's single
underscores between digits allowed), continuing after the first digit.
Returns `none` when a non-digit appears or an underscore is not followed by
a digit. -/
def pyIntDigitsAux : Nat → List Char → Option Nat
  | acc, [] => some acc
  | acc, '_' :: c :: cs =>
    if c.isDigit then pyIntDigitsAux (acc * 10 + digitVal c) cs else none
  | _, ['_'] => none
  | acc, c :: cs =>
    if c.isDigit then pyIntDigitsAux (acc * 10 + digitVal c) cs else none

/-- A nonempty digit run (first char must be a digit, then
`pyIntDigitsAux`), as accepted by Python `int` after the optional sign. -/
def pyIntDigits : List Char → Option Nat
  | [] => none
  | c :: cs => if c.isDigit then pyIntDigitsAux (digitVal c) cs else none

/-- Python `int(s)` on an already-stripped string: optional sign followed by
digits (underscore separators allowed); `none` models `ValueError`. -/
def pyInt : List Char → Option Int
  | [] => none
  | c :: cs =>
    if c == '+' then (pyIntDigits cs).map Int.ofNat
    else if c == '-' then (pyIntDigits cs).map fun n => -(Int.ofNat n)
    else (pyIntDigits (c :: cs)).map Int.ofNat

/-! ## Response parsing (`get_output_tie` body, `set_output_tie` ack) -/

/-- Maximal leading digit run of a character list. -/
def takeDigits (s : List Char) : List Char := s.takeWhile Char.isDigit

/-- Value of a digit list read left to right. -/
def digitsToNat (ds : List Char) : Nat :=
  ds.foldl (fun a c => a * 10 + digitVal c) 0

/-- `re.search(r'In(\d+)', response, re.IGNORECASE)`: leftmost occurrence of
`i`/`I` then `n`/`N` then at least one digit; returns the value of the
maximal digit run that follows. -/
def findIn : List Char → Option Nat
  | [] => none
  | c :: cs =>
    match cs with
    | [] => none
    | c₂ :: cs₂ =>
      if (c == 'I' || c == 'i') && (c₂ == 'N' || c₂ == 'n') then
        match cs₂ with
        | [] => findIn cs
        | d :: _ =>
          if d.isDigit then some (digitsToNat (takeDigits cs₂))
          else findIn cs
      else findIn cs

/-- The response-to-tie-number parse inside `get_output_tie`: first the
`In<digits>` regex search, then `int(response.strip())`, else `0`. -/
def parse_tie (response : String) : Int :=
  match findIn response.toList with
  | some n => Int.ofNat n
  | none =>
    match pyInt (stripL response.toList) with
    | some i => i
    | none => 0

/-- The acknowledgment check inside `set_output_tie`:
`"Out" in response and not response.startswith("E")`. -/
def parse_set_ack (response : String) : Bool :=
  containsS response "Out" && !(startsS response "E")

/-! ## Timestamp-noise predicate (`_read_response` loop condition) -/

/-- The loop guard of `_read_response` (minus the retry bound):
`response and "," in response and "202" in response`. -/
def isNoise (r : String) : Bool :=
  !(r == "") && containsS r "," && containsS r "202"

/-- Maximal digit runs (accumulator form): `cur` is the reversed run in
progress. -/
def digitRunsAux (cur : List Char) : List Char → List (List Char)
  | [] => if cur.isEmpty then [] else [cur.reverse]
  | c :: cs =>
    if c.isDigit then digitRunsAux (c :: cur) cs
    else if cur.isEmpty then digitRunsAux [] cs
    else cur.reverse :: digitRunsAux [] cs

/-- Maximal digit runs of a character list, in order. -/
def digitRuns (s : List Char) : List (List Char) := digitRunsAux [] s

/-- Modelled from the spec: the claim's noise predicate — the line is
non-empty, contains a comma, and contains a 3-digit token (maximal digit
run) beginning with "20". -/
def isNoiseSpec (r : String) : Bool :=
  !(r == "") && containsS r "," &&
    (digitRuns r.toList).any fun run =>
      run.length == 3 && startsWithL ['2', '0'] run

/-! ## Client state and world model

`CState` mirrors the instance attributes `_reader`, `_writer`, `_connected`
(handles abstracted to presence booleans).  `World` carries the environment:
whether `open_connection` succeeds, the stream of read outcomes, the queue
of write outcomes, and the wire of lines written so far. -/

/-- Outcome of one `readuntil` call: a line, a timeout, or an I/O error. -/
inductive REv where
  | line (s : String)
  | rtimeout
  | rerr
deriving DecidableEq, Repr

structure CState where
  reader : Bool
  writer : Bool
  connected : Bool
deriving DecidableEq, Repr

structure World where
  openOk : Bool
  events : List REv
  writes : List Bool
  wire : List String
deriving DecidableEq, Repr

/-- `is_connected`: `self._connected and self._writer is not None`. -/
def is_connected (st : CState) : Bool := st.connected && st.writer

/-- `_read_until_prompt`: raises when no reader; returns the next line;
returns `""` on timeout (an exhausted stream also reads as quiescence,
i.e. timeout); on any other error marks disconnected and raises. -/
def read_until_prompt (st : CState) (w : World) :
    Except Unit String × CState × World :=
  if st.reader = false then (.error (), { st with connected := false }, w)
  else
    match w.events with
    | [] => (.ok "", st, w)
    | .line s :: r => (.ok s, st, { w with events := r })
    | .rtimeout :: r => (.ok "", st, { w with events := r })
    | .rerr :: r => (.error (), { st with connected := false }, { w with events := r })

/-- The retry loop of `_read_response`: while the response looks like
timestamp noise and retries remain, read another line.  `budget` is
`3 - retry_count`. -/
def read_response_aux : Nat → String → CState → World →
    Except Unit String × CState × World
  | 0, resp, st, w => (.ok resp, st, w)
  | b + 1, resp, st, w =>
    if isNoise resp then
      match read_until_prompt st w with
      | (.ok r, st', w') => read_response_aux b r st' w'
      | (.error e, st', w') => (.error e, st', w')
    else (.ok resp, st, w)

/-- `_read_response`: one read, then the timestamp-noise retry loop
(at most 3 retries). -/
def read_response (st : CState) (w : World) :
    Except Unit String × CState × World :=
  match read_until_prompt st w with
  | (.ok r, st', w') => read_response_aux 3 r st' w'
  | (.error e, st', w') => (.error e, st', w')

/-- `_send_command_raw` / the write half of `_send_command`: raises when no
writer; otherwise consumes one write outcome (an exhausted queue means
success) and on success appends the line to the wire. -/
def writeLine (s : String) (st : CState) (w : World) :
    Except Unit Unit × CState × World :=
  if st.writer = false then (.error (), st, w)
  else
    match w.writes with
    | [] => (.ok (), st, { w with wire := w.wire ++ [s] })
    | b :: rest =>
      if b then (.ok (), st, { w with writes := rest, wire := w.wire ++ [s] })
      else (.error (), st, { w with writes := rest })

/-- Causes of a `connect` failure (the code raises plain `Exception`s with
distinct messages; we keep the cause). -/
inductive ConnErr where
  | timeout
  | passwordRequired
  | invalidPassword
  | ioErr
deriving DecidableEq, Repr

/-- Python truthiness of `self.password`: `not self.password` is true for
`None` and for the empty string. -/
def pwFalsy : Option String → Bool
  | none => true
  | some p => p == ""

/-- `connect`: open the connection, read the banner, read one logical
response; if it contains "Password:", require a truthy credential, send it,
and require "Login" in the reply; then set `connected`.  The
`asyncio.TimeoutError` branch re-raises without touching state; every other
failure sets `connected := False` before propagating. -/
def connect (pw : Option String) (st : CState) (w : World) :
    Except ConnErr Unit × CState × World :=
  if w.openOk = false then (.error .timeout, st, w)
  else
    match read_until_prompt { st with reader := true, writer := true } w with
    | (.error _, st₂, w₂) => (.error .ioErr, { st₂ with connected := false }, w₂)
    | (.ok _, st₂, w₂) =>
      match read_response st₂ w₂ with
      | (.error _, st₃, w₃) => (.error .ioErr, { st₃ with connected := false }, w₃)
      | (.ok resp, st₃, w₃) =>
        if containsS resp "Password:" then
          if pwFalsy pw then
            (.error .passwordRequired, { st₃ with connected := false }, w₃)
          else
            match writeLine (pw.getD "") st₃ w₃ with
            | (.error _, st₄, w₄) => (.error .ioErr, { st₄ with connected := false }, w₄)
            | (.ok _, st₄, w₄) =>
              match read_response st₄ w₄ with
              | (.error _, st₅, w₅) => (.error .ioErr, { st₅ with connected := false }, w₅)
              | (.ok lr, st₅, w₅) =>
                if containsS lr "Login" then (.ok (), { st₅ with connected := true }, w₅)
                else (.error .invalidPassword, { st₅ with connected := false }, w₅)
        else (.ok (), { st₃ with connected := true }, w₃)

/-- `_ensure_connected`: reconnect when `is_connected` is false, else no-op. -/
def ensure_connected (pw : Option String) (st : CState) (w : World) :
    Except ConnErr Unit × CState × World :=
  if is_connected st then (.ok (), st, w)
  else connect pw st w

/-- Failure of `_send_command`: either the reconnect inside
`_ensure_connected` failed, or the write/read of the command itself did. -/
inductive SendErr where
  | connectFailed (e : ConnErr)
  | ioError
deriving DecidableEq, Repr

/-- `_send_command`: ensure connectivity, write the command line, and read
one logical response when one is expected.  A write/read failure sets
`connected := False` and propagates.  (The error-marker check on the
response only logs.) -/
def send_command (pw : Option String) (command : String) (expect_response : Bool)
    (st : CState) (w : World) :
    Except SendErr (Option String) × CState × World :=
  match ensure_connected pw st w with
  | (.error e, st₁, w₁) => (.error (.connectFailed e), st₁, w₁)
  | (.ok _, st₁, w₁) =>
    match writeLine command st₁ w₁ with
    | (.error _, st₂, w₂) => (.error .ioError, { st₂ with connected := false }, w₂)
    | (.ok _, st₂, w₂) =>
      if expect_response then
        match read_response st₂ w₂ with
        | (.error _, st₃, w₃) => (.error .ioError, { st₃ with connected := false }, w₃)
        | (.ok r, st₃, w₃) => (.ok (some r), st₃, w₃)
      else (.ok none, st₂, w₂)

/-- `get_output_tie`: send `f"{output}%"` and parse the tie number.  (With
`expect_response = True` the response is never `None`; the `none` branch is
unreachable, see `send_command_expect_some`.) -/
def get_output_tie (pw : Option String) (output : Nat) (st : CState) (w : World) :
    Except SendErr Int × CState × World :=
  match send_command pw (toString output ++ "%") true st w with
  | (.error e, st', w') => (.error e, st', w')
  | (.ok (some r), st', w') => (.ok (parse_tie r), st', w')
  | (.ok none, st', w') => (.ok (parse_tie ""), st', w')

/-- `set_output_tie`: refuse `input_num == 0` locally (return `False`, no
send); otherwise send `f"{input_num}*{output}!"` and apply the ack check. -/
def set_output_tie (pw : Option String) (input_num output : Int)
    (st : CState) (w : World) : Except SendErr Bool × CState × World :=
  if input_num = 0 then (.ok false, st, w)
  else
    match send_command pw (toString input_num ++ "*" ++ toString output ++ "!") true st w with
    | (.error e, st', w') => (.error e, st', w')
    | (.ok (some r), st', w') => (.ok (parse_set_ack r), st', w')
    | (.ok none, st', w') => (.ok (parse_set_ack ""), st', w')

/-- The loop body of `get_all_ties` over an explicit list of outputs:
each per-output failure is caught and recorded as `0`, and iteration
continues. -/
def get_all_ties_aux (pw : Option String) :
    List Nat → CState → World → List (Nat × Int) × CState × World
  | [], st, w => ([], st, w)
  | o :: os, st, w =>
    match get_output_tie pw o st w with
    | (.ok v, st', w') =>
      let (rest, st'', w'') := get_all_ties_aux pw os st' w'
      ((o, v) :: rest, st'', w'')
    | (.error _, st', w') =>
      let (rest, st'', w'') := get_all_ties_aux pw os st' w'
      ((o, 0) :: rest, st'', w'')

/-- `get_all_ties`: iterate `range(1, num_outputs + 1)`; the dict (keyed in
insertion order) is modelled as an association list. -/
def get_all_ties (pw : Option String) (num_outputs : Nat) (st : CState) (w : World) :
    List (Nat × Int) × CState × World :=
  get_all_ties_aux pw (List.range' 1 num_outputs) st w

/-! ## Lock serialization model (`async with self._lock` in `_send_command`)

Two tasks call `_send_command` concurrently.  Each performs, in order:
acquire the lock, write its command line (one `writer.write` call of the
whole line), read its response, release the lock.  `asyncio.Lock` provides
mutual exclusion, modelled by the owner field: writes and reads are only
enabled for the owner, and acquisition only when the lock is free. -/

/-- One transport-relevant step of a `_send_command` call. -/
inductive Act where
  | acquire
  | wr
  | rd
  | rel
deriving DecidableEq, Repr

/-- Shared system state: who holds the lock, and each task's program
counter (0 = before acquire, 1 = holds lock, 2 = line written,
3 = response read, 4 = done). -/
structure Sys where
  owner : Option Bool
  pc0 : Nat
  pc1 : Nat
deriving DecidableEq, Repr

/-- Program counter of task `t`. -/
def pcOf (s : Sys) (t : Bool) : Nat := if t then s.pc1 else s.pc0

/-- Set the program counter of task `t`. -/
def setPc (s : Sys) (t : Bool) (n : Nat) : Sys :=
  if t then { s with pc1 := n } else { s with pc0 := n }

/-- Small-step semantics of the two `_send_command` calls under the lock. -/
inductive LStep : Sys → Bool × Act → Sys → Prop where
  | acq (s : Sys) (t : Bool) (h₁ : pcOf s t = 0) (h₂ : s.owner = none) :
      LStep s (t, .acquire) { setPc s t 1 with owner := some t }
  | wr (s : Sys) (t : Bool) (h₁ : pcOf s t = 1) (h₂ : s.owner = some t) :
      LStep s (t, .wr) (setPc s t 2)
  | rd (s : Sys) (t : Bool) (h₁ : pcOf s t = 2) (h₂ : s.owner = some t) :
      LStep s (t, .rd) (setPc s t 3)
  | rel (s : Sys) (t : Bool) (h₁ : pcOf s t = 3) (h₂ : s.owner = some t) :
      LStep s (t, .rel) { setPc s t 4 with owner := none }

/-- `Reaches s tr s'`: trace `tr` of interleaved steps takes `s` to `s'`. -/
inductive Reaches : Sys → List (Bool × Act) → Sys → Prop where
  | nil (s : Sys) : Reaches s [] s
  | cons {s₁ s₂ s₃ : Sys} {ev : Bool × Act} {tr : List (Bool × Act)}
      (hstep : LStep s₁ ev s₂) (htr : Reaches s₂ tr s₃) : Reaches s₁ (ev :: tr) s₃

/-! ## Helper lemmas -/

theorem pyInt_nonneg (l : List Char) (h : l.head? ≠ some '-') :
    ∀ i, pyInt l = some i → 0 ≤ i := by
  intro i hi
  cases l with
  | nil => simp [pyInt] at hi
  | cons c cs =>
    simp only [List.head?_cons, ne_eq, Option.some.injEq] at h
    simp only [pyInt] at hi
    by_cases hp : c == '+'
    · simp only [hp, if_true, Option.map_eq_some'] at hi
      obtain ⟨n, _, rfl⟩ := hi
      exact Int.ofNat_nonneg n
    · have hm : (c == '-') = false := by
        cases hb : c == '-'
        · rfl
        · exact absurd (by simpa using hb) h
      simp only [hp, hm, if_false, Bool.false_eq_true, Option.map_eq_some'] at hi
      obtain ⟨n, _, rfl⟩ := hi
      exact Int.ofNat_nonneg n

/-- With `expect_response = True`, `_send_command` never returns `None`:
the `.ok none` branches of its callers are unreachable. -/
theorem send_command_expect_some (pw : Option String) (c : String)
    (st : CState) (w : World) :
    (send_command pw c true st w).1 ≠ Except.ok none := by
  simp only [send_command]
  rcases ensure_connected pw st w with ⟨res₁, st₁, w₁⟩
  cases res₁ with
  | error e => simp
  | ok u =>
    simp only
    rcases writeLine c st₁ w₁ with ⟨res₂, st₂, w₂⟩
    cases res₂ with
    | error e => simp
    | ok u₂ =>
      simp only [if_true]
      rcases read_response st₂ w₂ with ⟨res₃, st₃, w₃⟩
      cases res₃ <;> simp

theorem read_until_prompt_state (st : CState) (w : World) (r : Except Unit String)
    (st' : CState) (w' : World) (h : read_until_prompt st w = (r, st', w')) :
    st'.writer = st.writer ∧ st'.reader = st.reader := by
  unfold read_until_prompt at h
  split at h
  · injection h with h₁ h₂; injection h₂ with h₂ h₃; subst h₂; simp
  · split at h <;>
      (injection h with h₁ h₂; injection h₂ with h₂ h₃; subst h₂; simp)

theorem read_response_aux_state (b : Nat) :
    ∀ resp st w r st' w', read_response_aux b resp st w = (r, st', w') →
      st'.writer = st.writer ∧ st'.reader = st.reader := by
  induction b with
  | zero =>
    intro resp st w r st' w' h
    injection h with h₁ h₂; injection h₂ with h₂ h₃; subst h₂; simp
  | succ b ih =>
    intro resp st w r st' w' h
    unfold read_response_aux at h
    split at h
    · rcases h₁ : read_until_prompt st w with ⟨r₁, s₁, w₁⟩
      rw [h₁] at h
      cases r₁ with
      | ok l =>
        simp only at h
        have h₂ := ih l s₁ w₁ r st' w' h
        have h₃ := read_until_prompt_state st w _ s₁ w₁ h₁
        exact ⟨h₂.1.trans h₃.1, h₂.2.trans h₃.2⟩
      | error e =>
        simp only at h
        injection h with h₁' h₂'; injection h₂' with h₂' h₃'; subst h₂'
        exact read_until_prompt_state st w _ _ w₁ h₁
    · injection h with h₁ h₂; injection h₂ with h₂ h₃; subst h₂; simp

theorem read_response_state (st : CState) (w : World) (r : Except Unit String)
    (st' : CState) (w' : World) (h : read_response st w = (r, st', w')) :
    st'.writer = st.writer ∧ st'.reader = st.reader := by
  unfold read_response at h
  rcases h₁ : read_until_prompt st w with ⟨r₁, s₁, w₁⟩
  rw [h₁] at h
  cases r₁ with
  | ok l =>
    simp only at h
    have h₂ := read_response_aux_state 3 l s₁ w₁ r st' w' h
    have h₃ := read_until_prompt_state st w _ s₁ w₁ h₁
    exact ⟨h₂.1.trans h₃.1, h₂.2.trans h₃.2⟩
  | error e =>
    simp only at h
    injection h with h₁' h₂'; injection h₂' with h₂' h₃'; subst h₂'
    exact read_until_prompt_state st w _ _ w₁ h₁

theorem writeLine_state (s : String) (st : CState) (w : World)
    (r : Except Unit Unit) (st' : CState) (w' : World)
    (h : writeLine s st w = (r, st', w')) : st' = st := by
  unfold writeLine at h
  split at h
  · injection h with h₁ h₂; injection h₂ with h₂ h₃; exact h₂.symm
  · split at h
    · injection h with h₁ h₂; injection h₂ with h₂ h₃; exact h₂.symm
    · split at h <;>
        (injection h with h₁ h₂; injection h₂ with h₂ h₃; exact h₂.symm)

theorem read_until_prompt_wire (st : CState) (w : World) (r : Except Unit String)
    (st' : CState) (w' : World) (h : read_until_prompt st w = (r, st', w')) :
    w'.wire = w.wire := by
  unfold read_until_prompt at h
  split at h
  · injection h with h₁ h₂; injection h₂ with h₂ h₃; subst h₃; rfl
  · split at h <;>
      (injection h with h₁ h₂; injection h₂ with h₂ h₃; subst h₃; rfl)

theorem read_response_aux_wire (b : Nat) :
    ∀ resp st w r st' w', read_response_aux b resp st w = (r, st', w') →
      w'.wire = w.wire := by
  induction b with
  | zero =>
    intro resp st w r st' w' h
    injection h with h₁ h₂; injection h₂ with h₂ h₃; subst h₃; rfl
  | succ b ih =>
    intro resp st w r st' w' h
    unfold read_response_aux at h
    split at h
    · rcases h₁ : read_until_prompt st w with ⟨r₁, s₁, w₁⟩
      rw [h₁] at h
      cases r₁ with
      | ok l =>
        simp only at h
        exact (ih l s₁ w₁ r st' w' h).trans (read_until_prompt_wire st w _ s₁ w₁ h₁)
      | error e =>
        simp only at h
        injection h with h₁' h₂'; injection h₂' with h₂' h₃'; subst h₃'
        exact read_until_prompt_wire st w _ _ _ h₁
    · injection h with h₁ h₂; injection h₂ with h₂ h₃; subst h₃; rfl

theorem read_response_wire (st : CState) (w : World) (r : Except Unit String)
    (st' : CState) (w' : World) (h : read_response st w = (r, st', w')) :
    w'.wire = w.wire := by
  unfold read_response at h
  rcases h₁ : read_until_prompt st w with ⟨r₁, s₁, w₁⟩
  rw [h₁] at h
  cases r₁ with
  | ok l =>
    simp only at h
    exact (read_response_aux_wire 3 l s₁ w₁ r st' w' h).trans
      (read_until_prompt_wire st w _ s₁ w₁ h₁)
  | error e =>
    simp only at h
    injection h with h₁' h₂'; injection h₂' with h₂' h₃'; subst h₃'
    exact read_until_prompt_wire st w _ _ _ h₁

theorem writeLine_wire (s : String) (st : CState) (w : World)
    (r : Except Unit Unit) (st' : CState) (w' : World)
    (h : writeLine s st w = (r, st', w')) :
    w'.wire = w.wire ∨ w'.wire = w.wire ++ [s] := by
  unfold writeLine at h
  split at h
  · injection h with h₁ h₂; injection h₂ with h₂ h₃; subst h₃; exact Or.inl rfl
  · split at h
    · injection h with h₁ h₂; injection h₂ with h₂ h₃; subst h₃; exact Or.inr rfl
    · split at h
      · injection h with h₁ h₂; injection h₂ with h₂ h₃; subst h₃; exact Or.inr rfl
      · injection h with h₁ h₂; injection h₂ with h₂ h₃; subst h₃; exact Or.inl rfl

/-- The only thing `connect` can write to the wire is the configured
credential. -/
theorem connect_wire (pw : Option String) (st : CState) (w : World)
    (r : Except ConnErr Unit) (st' : CState) (w' : World)
    (h : connect pw st w = (r, st', w')) :
    w'.wire = w.wire ∨ w'.wire = w.wire ++ [pw.getD ""] := by
  unfold connect at h
  split at h
  · injection h with h₁ h₂; injection h₂ with h₂ h₃; subst h₃; exact Or.inl rfl
  · rcases h₁ : read_until_prompt { st with reader := true, writer := true } w
      with ⟨r₁, st₂, w₂⟩
    rw [h₁] at h
    have hq₁ := read_until_prompt_wire _ _ _ _ _ h₁
    cases r₁ with
    | error u =>
      simp only at h
      injection h with e₁ e₂; injection e₂ with e₂ e₃; subst e₃
      exact Or.inl hq₁
    | ok banner =>
      simp only at h
      rcases h₂ : read_response st₂ w₂ with ⟨r₂, st₃, w₃⟩
      rw [h₂] at h
      have hq₂ := (read_response_wire _ _ _ _ _ h₂).trans hq₁
      cases r₂ with
      | error u =>
        simp only at h
        injection h with e₁ e₂; injection e₂ with e₂ e₃; subst e₃
        exact Or.inl hq₂
      | ok resp =>
        simp only at h
        split at h
        · split at h
          · injection h with e₁ e₂; injection e₂ with e₂ e₃; subst e₃
            exact Or.inl hq₂
          · rcases h₃ : writeLine (pw.getD "") st₃ w₃ with ⟨r₃, st₄, w₄⟩
            rw [h₃] at h
            have hq₃ := writeLine_wire _ _ _ _ _ _ h₃
            cases r₃ with
            | error u =>
              simp only at h
              injection h with e₁ e₂; injection e₂ with e₂ e₃; subst e₃
              rcases hq₃ with hq₃ | hq₃
              · exact Or.inl (hq₃.trans hq₂)
              · exact Or.inr (by rw [hq₃, hq₂])
            | ok u =>
              simp only at h
              rcases h₄ : read_response st₄ w₄ with ⟨r₄, st₅, w₅⟩
              rw [h₄] at h
              have hq₄ := read_response_wire _ _ _ _ _ h₄
              have hq₄' : w₅.wire = w.wire ∨ w₅.wire = w.wire ++ [pw.getD ""] := by
                rcases hq₃ with hq₃ | hq₃
                · exact Or.inl (hq₄.trans (hq₃.trans hq₂))
                · exact Or.inr (by rw [hq₄, hq₃, hq₂])
              cases r₄ with
              | error u₂ =>
                simp only at h
                injection h with e₁ e₂; injection e₂ with e₂ e₃; subst e₃
                exact hq₄'
              | ok lr =>
                simp only at h
                split at h <;>
                  (injection h with e₁ e₂; injection e₂ with e₂ e₃; subst e₃;
                    exact hq₄')
        · injection h with e₁ e₂; injection e₂ with e₂ e₃; subst e₃
          exact Or.inl hq₂

/-! ## Claims -/

/-- C4: the tie-number parse in `get_output_tie` first searches anywhere for
an `In<digits>` token case-insensitively and returns that integer; otherwise
it parses the whole trimmed text as a bare integer; otherwise it returns 0.
It maps "Out01 In05 All" to 5, "05" to 5, "garbage" to 0, "" to 0. -/
theorem claim_C4 :
    parse_tie "Out01 In05 All" = 5 ∧ parse_tie "05" = 5 ∧
    parse_tie "garbage" = 0 ∧ parse_tie "" = 0 ∧
    (∀ s n, findIn s.toList = some n → parse_tie s = Int.ofNat n) ∧
    (∀ s i, findIn s.toList = none → pyInt (stripL s.toList) = some i →
      parse_tie s = i) ∧
    (∀ s, findIn s.toList = none → pyInt (stripL s.toList) = none →
      parse_tie s = 0) := by
  refine ⟨by decide, by decide, by decide, by decide, ?_, ?_, ?_⟩
  · intro s n h
    simp [parse_tie, show findIn s.data = some n from h]
  · intro s i h₁ h₂
    simp [parse_tie, show findIn s.data = none from h₁,
      show pyInt (stripL s.data) = some i from h₂]
  · intro s h₁ h₂
    simp [parse_tie, show findIn s.data = none from h₁,
      show pyInt (stripL s.data) = none from h₂]

theorem claim_C4_witness : parse_tie "xIN7y" = Int.ofNat 7 :=
  claim_C4.2.2.2.2.1 "xIN7y" 7 (by decide)

/-- C5 counterexample: on the response text "-3" (no `In` token, and the
trimmed text parses under Python `int` as a negative number) the tie parse
of `get_output_tie` returns -3, a negative value — so the produced input
number is not non-negative for every response text. -/
theorem claim_C5_counterexample : parse_tie "-3" = -3 ∧ parse_tie "-3" < 0 := by
  decide

/-- C5 (amended): for every response text whose trimmed form does not begin
with a minus sign, the input number produced by `get_output_tie` is
non-negative. -/
theorem claim_C5 (s : String) (h : (stripL s.toList).head? ≠ some '-') :
    0 ≤ parse_tie s := by
  unfold parse_tie
  cases hf : findIn s.toList with
  | some n => exact Int.ofNat_nonneg n
  | none =>
    cases hp : pyInt (stripL s.toList) with
    | none => exact le_refl 0
    | some i => exact pyInt_nonneg _ h i hp

theorem claim_C5_witness : ((stripL "abc".toList).head? ≠ some '-') ∧
    0 ≤ parse_tie "abc" :=
  ⟨by decide, claim_C5 "abc" (by decide)⟩

/-- C6: the set-acknowledgment check of `set_output_tie` is true exactly
when the text contains the substring "Out" and does not start with "E";
it maps "Out01•In05•All" to true, "E10" to false, "" to false. -/
theorem claim_C6 :
    (∀ s : String, parse_set_ack s = true ↔
      ((∃ a b, s.toList = a ++ ['O', 'u', 't'] ++ b) ∧
        ¬∃ t, s.toList = 'E' :: t)) ∧
    parse_set_ack "Out01•In05•All" = true ∧
    parse_set_ack "E10" = false ∧ parse_set_ack "" = false := by
  refine ⟨?_, by decide, by decide, by decide⟩
  intro s
  have hOut : ("Out".toList : List Char) = ['O', 'u', 't'] := rfl
  have hE : ("E".toList : List Char) = ['E'] := rfl
  simp only [parse_set_ack, containsS, startsS, hOut, hE, Bool.and_eq_true,
    Bool.not_eq_true', containsL_iff]
  constructor
  · rintro ⟨⟨a, b, hab⟩, hpre⟩
    refine ⟨⟨a, b, hab⟩, ?_⟩
    rintro ⟨t, ht⟩
    have : startsWithL ['E'] s.toList = true := (startsWithL_iff _ _).mpr ⟨t, ht⟩
    rw [this] at hpre
    simp at hpre
  · rintro ⟨⟨a, b, hab⟩, hpre⟩
    refine ⟨⟨a, b, hab⟩, ?_⟩
    cases hsw : startsWithL ['E'] s.toList with
    | false => rfl
    | true =>
      obtain ⟨t, ht⟩ := (startsWithL_iff _ _).mp hsw
      exact absurd ⟨t, by simpa using ht⟩ hpre

theorem claim_C6_witness : parse_set_ack "Out" = true :=
  (claim_C6.1 "Out").mpr ⟨⟨[], [], rfl⟩, by simp⟩

/-- C3 counterexample: the line "a,205b" contains a comma and the 3-digit
token "205" beginning with "20", so under the claim's noise predicate
`_read_response` should re-read (retries remain and a further line is
available); but the code's guard checks for the literal substring "202",
so it returns "a,205b" at once, consuming a single line. -/
theorem claim_C3_counterexample :
    isNoiseSpec "a,205b" = true ∧
    read_response ⟨true, true, true⟩
        ⟨true, [REv.line "a,205b", REv.line "x"], [], []⟩ =
      (Except.ok "a,205b", ⟨true, true, true⟩,
        ⟨true, [REv.line "x"], [], []⟩) := by
  exact ⟨by decide, rfl⟩

/-- C3 (amended): `_read_response` re-reads exactly while the current line
is non-empty, contains a comma, and contains the literal substring "202",
and fewer than 3 retries have been used; on a stream of plain lines it
therefore reads at most 4 lines and returns the last line read (which may
be empty). -/
theorem claim_C3 (st : CState) (w : World) (l₀ l₁ l₂ l₃ : String)
    (rest : List REv) (hr : st.reader = true)
    (hev : w.events = REv.line l₀ :: REv.line l₁ :: REv.line l₂ ::
      REv.line l₃ :: rest) :
    read_response st w =
      if isNoise l₀ = false then
        (Except.ok l₀, st,
          { w with events := REv.line l₁ :: REv.line l₂ :: REv.line l₃ :: rest })
      else if isNoise l₁ = false then
        (Except.ok l₁, st, { w with events := REv.line l₂ :: REv.line l₃ :: rest })
      else if isNoise l₂ = false then
        (Except.ok l₂, st, { w with events := REv.line l₃ :: rest })
      else (Except.ok l₃, st, { w with events := rest }) := by
  have hr' : (st.reader = false) = False := by simp [hr]
  simp only [read_response, read_until_prompt, hr', if_false, hev,
    read_response_aux]
  by_cases h₀ : isNoise l₀
  · by_cases h₁ : isNoise l₁
    · by_cases h₂ : isNoise l₂
      · simp [h₀, h₁, h₂, read_until_prompt, hr']
      · simp [h₀, h₁, h₂, read_until_prompt, hr']
    · simp [h₀, h₁, read_until_prompt, hr']
  · simp [h₀]

theorem claim_C3_witness :
    read_response ⟨true, true, true⟩
        ⟨true, [REv.line "a,2025", REv.line "b,2026", REv.line "c",
          REv.line "d"], [], []⟩ =
      (Except.ok "c", ⟨true, true, true⟩, ⟨true, [REv.line "d"], [], []⟩) := by
  have h := claim_C3 ⟨true, true, true⟩
    ⟨true, [REv.line "a,2025", REv.line "b,2026", REv.line "c",
      REv.line "d"], [], []⟩ "a,2025" "b,2026" "c" "d" [] rfl rfl
  rw [h]
  simp [show isNoise "a,2025" = true by decide,
    show isNoise "b,2026" = true by decide, show isNoise "c" = false by decide]

/-- The keys of the association list built by `get_all_ties_aux` are exactly
the outputs iterated over, in order, whatever the per-output outcomes. -/
theorem get_all_ties_aux_keys (pw : Option String) (os : List Nat) :
    ∀ st w, ((get_all_ties_aux pw os st w).1).map Prod.fst = os := by
  induction os with
  | nil => intro st w; rfl
  | cons o os ih =>
    intro st w
    simp only [get_all_ties_aux]
    rcases h : get_output_tie pw o st w with ⟨res, st', w'⟩
    cases res with
    | ok v => simp [ih st' w']
    | error e => simp [ih st' w']

/-- C1: `get_all_ties(num_outputs)` queries outputs 1..num_outputs in
ascending order and returns one entry per output; a per-output failure is
recorded as 0 and the remaining outputs are still queried. -/
theorem claim_C1 (pw : Option String) (n : Nat) (st : CState) (w : World) :
    ((get_all_ties pw n st w).1).map Prod.fst = List.range' 1 n ∧
    (∀ o os st' w' e st₂ w₂,
      get_output_tie pw o st' w' = (Except.error e, st₂, w₂) →
      get_all_ties_aux pw (o :: os) st' w' =
        ((o, 0) :: (get_all_ties_aux pw os st₂ w₂).1,
          (get_all_ties_aux pw os st₂ w₂).2)) := by
  constructor
  · exact get_all_ties_aux_keys pw (List.range' 1 n) st w
  · intro o os st' w' e st₂ w₂ h
    simp only [get_all_ties_aux, h]

theorem claim_C1_witness :
    get_all_ties_aux none [1, 2] ⟨false, false, false⟩ ⟨false, [], [], []⟩ =
      ((1, 0) ::
        (get_all_ties_aux none [2] ⟨false, false, false⟩ ⟨false, [], [], []⟩).1,
        (get_all_ties_aux none [2] ⟨false, false, false⟩
          ⟨false, [], [], []⟩).2) :=
  (claim_C1 none 2 ⟨false, false, false⟩ ⟨false, [], [], []⟩).2 1 [2]
    ⟨false, false, false⟩ ⟨false, [], [], []⟩ (.connectFailed .timeout)
    ⟨false, false, false⟩ ⟨false, [], [], []⟩ rfl

/-- C8: `set_output_tie(0, output)` returns false with the transport state
and wire unchanged (no send); for a nonzero input it sends the tie-set
command line and returns the ack check on the response. -/
theorem claim_C8 (pw : Option String) (out : Int) (st : CState) (w : World) :
    set_output_tie pw 0 out st w = (Except.ok false, st, w) ∧
    (∀ inp r st' w', inp ≠ 0 →
      send_command pw (toString inp ++ "*" ++ toString out ++ "!") true st w =
        (Except.ok (some r), st', w') →
      set_output_tie pw inp out st w =
        (Except.ok (parse_set_ack r), st', w')) := by
  constructor
  · simp [set_output_tie]
  · intro inp r st' w' hne h
    simp [set_output_tie, hne, h]

theorem claim_C8_witness :
    set_output_tie none 5 1 ⟨true, true, true⟩
        ⟨true, [REv.line "Out01 In05 All"], [], []⟩ =
      (Except.ok true, ⟨true, true, true⟩,
        ⟨true, [], [], ["5*1!"]⟩) := by
  have h := (claim_C8 none 1 ⟨true, true, true⟩
    ⟨true, [REv.line "Out01 In05 All"], [], []⟩).2 5 "Out01 In05 All"
    ⟨true, true, true⟩ ⟨true, [], [], ["5*1!"]⟩ (by decide) rfl
  rw [h, show parse_set_ack "Out01 In05 All" = true by decide]

/-- C2 counterexample: on a fresh client, when the connection opens and the
device presents the password prompt but no credential is configured,
`connect` raises — yet the final state keeps the handle present
(`writer = true`) while `connected = false`.  A state with the handle
present but the session not connected persists past the connect call,
contrary to the claim. -/
theorem claim_C2_counterexample :
    connect none ⟨false, false, false⟩
        ⟨true, [REv.line "(c) Copyright", REv.line "Password: please"], [], []⟩ =
      (Except.error ConnErr.passwordRequired, ⟨true, true, false⟩,
        ⟨true, [], [], []⟩) ∧
    (CState.mk true true false).writer = true ∧
    (CState.mk true true false).connected = false ∧
    is_connected ⟨true, true, false⟩ = false :=
  ⟨rfl, rfl, rfl, rfl⟩

/-- C2 (amended): when `connect` is called in a disconnected state, on
success the session is fully connected (`connected` true, handle present);
on failure the `connected` flag is false — so `is_connected` reports
false — but the connection handle may remain present. -/
theorem claim_C2 (pw : Option String) (st : CState) (w : World)
    (h : st.connected = false) :
    ∀ res st' w', connect pw st w = (res, st', w') →
      (res = Except.ok () →
        st'.connected = true ∧ st'.writer = true ∧ is_connected st' = true) ∧
      (∀ e, res = Except.error e →
        st'.connected = false ∧ is_connected st' = false) := by
  intro res st' w' hc
  unfold connect at hc
  split at hc
  · injection hc with e₁ e₂
    injection e₂ with e₂ e₃
    subst e₁; subst e₂
    refine ⟨fun hok => by simp at hok, fun e he => ⟨h, by simp [is_connected, h]⟩⟩
  · rcases h₁ : read_until_prompt { st with reader := true, writer := true } w
      with ⟨r₁, st₂, w₂⟩
    rw [h₁] at hc
    have hp₁ := read_until_prompt_state _ _ _ _ _ h₁
    have hw₂ : st₂.writer = true := by simpa using hp₁.1
    cases r₁ with
    | error u =>
      simp only at hc
      injection hc with e₁ e₂
      injection e₂ with e₂ e₃
      subst e₁; subst e₂
      exact ⟨fun hok => by simp at hok, fun e he => ⟨rfl, by simp [is_connected]⟩⟩
    | ok banner =>
      simp only at hc
      rcases h₂ : read_response st₂ w₂ with ⟨r₂, st₃, w₃⟩
      rw [h₂] at hc
      have hp₂ := read_response_state _ _ _ _ _ h₂
      have hw₃ : st₃.writer = true := hp₂.1.trans hw₂
      cases r₂ with
      | error u =>
        simp only at hc
        injection hc with e₁ e₂
        injection e₂ with e₂ e₃
        subst e₁; subst e₂
        exact ⟨fun hok => by simp at hok, fun e he => ⟨rfl, by simp [is_connected]⟩⟩
      | ok resp =>
        simp only at hc
        split at hc
        · split at hc
          · injection hc with e₁ e₂
            injection e₂ with e₂ e₃
            subst e₁; subst e₂
            exact ⟨fun hok => by simp at hok,
              fun e he => ⟨rfl, by simp [is_connected]⟩⟩
          · rcases h₃ : writeLine (pw.getD "") st₃ w₃ with ⟨r₃, st₄, w₄⟩
            rw [h₃] at hc
            have hst₄ : st₄ = st₃ := writeLine_state _ _ _ _ _ _ h₃
            cases r₃ with
            | error u =>
              simp only at hc
              injection hc with e₁ e₂
              injection e₂ with e₂ e₃
              subst e₁; subst e₂
              exact ⟨fun hok => by simp at hok,
                fun e he => ⟨rfl, by simp [is_connected]⟩⟩
            | ok u =>
              simp only at hc
              rcases h₄ : read_response st₄ w₄ with ⟨r₄, st₅, w₅⟩
              rw [h₄] at hc
              have hp₄ := read_response_state _ _ _ _ _ h₄
              have hw₅ : st₅.writer = true := by
                rw [hp₄.1, hst₄]; exact hw₃
              cases r₄ with
              | error u₂ =>
                simp only at hc
                injection hc with e₁ e₂
                injection e₂ with e₂ e₃
                subst e₁; subst e₂
                exact ⟨fun hok => by simp at hok,
                  fun e he => ⟨rfl, by simp [is_connected]⟩⟩
              | ok lr =>
                simp only at hc
                split at hc
                · injection hc with e₁ e₂
                  injection e₂ with e₂ e₃
                  subst e₁; subst e₂
                  refine ⟨fun hok => ⟨rfl, by simpa using hw₅, ?_⟩,
                    fun e he => by simp at he⟩
                  simp [is_connected, hw₅]
                · injection hc with e₁ e₂
                  injection e₂ with e₂ e₃
                  subst e₁; subst e₂
                  exact ⟨fun hok => by simp at hok,
                    fun e he => ⟨rfl, by simp [is_connected]⟩⟩
        · injection hc with e₁ e₂
          injection e₂ with e₂ e₃
          subst e₁; subst e₂
          refine ⟨fun hok => ⟨rfl, by simpa using hw₃, ?_⟩,
            fun e he => by simp at he⟩
          simp [is_connected, hw₃]

/-- C7: an I/O failure during a command's write or read marks the session
disconnected and propagates; a disconnected session makes the next
`_send_command` re-run the full connect-plus-handshake before writing, and
if that reconnect fails the command is aborted with no partial send (the
command line is never written to the wire). -/
theorem claim_C7 (pw : Option String) (cmd : String) (er : Bool)
    (st : CState) (w : World) :
    (∀ st' w', send_command pw cmd er st w = (Except.error SendErr.ioError, st', w') →
      st'.connected = false ∧ is_connected st' = false) ∧
    (is_connected st = false → ensure_connected pw st w = connect pw st w) ∧
    (∀ e st' w', is_connected st = false →
      connect pw st w = (Except.error e, st', w') →
      send_command pw cmd er st w =
        (Except.error (SendErr.connectFailed e), st', w') ∧
      (cmd ∉ w.wire → cmd ≠ pw.getD "" → cmd ∉ w'.wire)) := by
  refine ⟨?_, ?_, ?_⟩
  · intro st' w' h
    unfold send_command at h
    rcases he : ensure_connected pw st w with ⟨re, st₁, w₁⟩
    rw [he] at h
    cases re with
    | error e =>
      simp only at h
      injection h with e₁ e₂
      simp at e₁
    | ok u =>
      simp only at h
      rcases hw : writeLine cmd st₁ w₁ with ⟨rw₂, st₂, w₂⟩
      rw [hw] at h
      cases rw₂ with
      | error u₂ =>
        simp only at h
        injection h with e₁ e₂
        injection e₂ with e₂ e₃
        subst e₂
        exact ⟨rfl, by simp [is_connected]⟩
      | ok u₂ =>
        simp only at h
        cases er with
        | false => simp only [Bool.false_eq_true, if_false] at h; injection h with e₁ e₂; simp at e₁
        | true =>
          simp only [if_true] at h
          rcases hr : read_response st₂ w₂ with ⟨r₃, st₃, w₃⟩
          rw [hr] at h
          cases r₃ with
          | error u₃ =>
            simp only at h
            injection h with e₁ e₂
            injection e₂ with e₂ e₃
            subst e₂
            exact ⟨rfl, by simp [is_connected]⟩
          | ok resp =>
            simp only at h
            injection h with e₁ e₂
            simp at e₁
  · intro hdis
    simp [ensure_connected, hdis]
  · intro e st' w' hdis hconn
    have hens : ensure_connected pw st w = (Except.error e, st', w') := by
      simpa [ensure_connected, hdis] using hconn
    constructor
    · unfold send_command
      rw [hens]
    · intro hnotin hne
      rcases connect_wire pw st w _ st' w' hconn with hq | hq
      · rw [hq]; exact hnotin
      · rw [hq]
        intro hmem
        rcases List.mem_append.mp hmem with hm | hm
        · exact hnotin hm
        · exact hne (by simpa using hm)

theorem claim_C7_witness :
    ((⟨true, true, false⟩ : CState).connected = false ∧
      is_connected ⟨true, true, false⟩ = false) ∧
    (send_command none "1%" true ⟨false, false, false⟩ ⟨false, [], [], []⟩ =
        (Except.error (SendErr.connectFailed ConnErr.timeout),
          ⟨false, false, false⟩, ⟨false, [], [], []⟩) ∧
      "1%" ∉ (⟨false, [], [], []⟩ : World).wire) :=
  ⟨(claim_C7 none "1%" true ⟨true, true, true⟩
      ⟨true, [], [false], []⟩).1 ⟨true, true, false⟩ ⟨true, [], [], []⟩ rfl,
    by
      have h := (claim_C7 none "1%" true ⟨false, false, false⟩
        ⟨false, [], [], []⟩).2.2 ConnErr.timeout ⟨false, false, false⟩
        ⟨false, [], [], []⟩ rfl rfl
      exact ⟨h.1, h.2 (by simp) (by decide)⟩⟩

theorem claim_C2_witness :
    ((CState.mk false false false).connected = false) ∧
    ((⟨true, true, true⟩ : CState).connected = true ∧
      (⟨true, true, true⟩ : CState).writer = true ∧
      is_connected ⟨true, true, true⟩ = true) :=
  ⟨rfl,
    (claim_C2 none ⟨false, false, false⟩ ⟨true, [REv.line "banner", REv.line "ready"], [], []⟩
        rfl (Except.ok ()) ⟨true, true, true⟩ ⟨true, [], [], []⟩ rfl).1 rfl⟩

/-- C10: with the empty string configured as credential, `connect` behaves
exactly as with no credential at all (`not self.password` is true for both):
it never writes anything to the wire, and when the device presents the
password prompt it fails with the password-required error. -/
theorem claim_C10 (st : CState) (w : World) :
    connect (some "") st w = connect none st w ∧
    ((connect (some "") st w).2.2).wire = w.wire ∧
    (∀ b p rest, w.openOk = true →
      w.events = REv.line b :: REv.line p :: rest →
      isNoise p = false → containsS p "Password:" = true →
      connect (some "") st w =
        (Except.error ConnErr.passwordRequired, ⟨true, true, false⟩,
          { w with events := rest })) := by
  refine ⟨?_, ?_, ?_⟩
  · by_cases hop : w.openOk = false
    · simp [connect, hop]
    · unfold connect
      rw [if_neg hop, if_neg hop]
      rcases h₁ : read_until_prompt { st with reader := true, writer := true } w
        with ⟨r₁, st₂, w₂⟩
      cases r₁ with
      | error u => simp
      | ok banner =>
        simp only
        rcases h₂ : read_response st₂ w₂ with ⟨r₂, st₃, w₃⟩
        cases r₂ with
        | error u => simp
        | ok resp =>
          simp only
          by_cases hps : containsS resp "Password:" = true
          · simp [hps, pwFalsy]
          · simp [hps]
  · by_cases hop : w.openOk = false
    · simp [connect, hop]
    · unfold connect
      rw [if_neg hop]
      rcases h₁ : read_until_prompt { st with reader := true, writer := true } w
        with ⟨r₁, st₂, w₂⟩
      have hq₁ := read_until_prompt_wire _ _ _ _ _ h₁
      cases r₁ with
      | error u => simpa using hq₁
      | ok banner =>
        simp only
        rcases h₂ : read_response st₂ w₂ with ⟨r₂, st₃, w₃⟩
        have hq₂ := (read_response_wire _ _ _ _ _ h₂).trans hq₁
        cases r₂ with
        | error u => simpa using hq₂
        | ok resp =>
          simp only
          by_cases hps : containsS resp "Password:" = true
          · simp [hps, pwFalsy, hq₂]
          · simp [hps, hq₂]
  · intro b p rest hopen hev hnoise hps
    have hop : ¬(w.openOk = false) := by simp [hopen]
    unfold connect
    rw [if_neg hop]
    have h₁ : read_until_prompt { st with reader := true, writer := true } w =
        (Except.ok b, { st with reader := true, writer := true },
          { w with events := REv.line p :: rest }) := by
      simp [read_until_prompt, hev]
    rw [h₁]
    simp only
    have h₂ : read_response { st with reader := true, writer := true }
        { w with events := REv.line p :: rest } =
        (Except.ok p, { st with reader := true, writer := true },
          { w with events := rest }) := by
      unfold read_response
      have h₃ : read_until_prompt { st with reader := true, writer := true }
          { w with events := REv.line p :: rest } =
          (Except.ok p, { st with reader := true, writer := true },
            { w with events := rest }) := by
        simp [read_until_prompt]
      rw [h₃]
      simp only [read_response_aux, hnoise]
      simp
    rw [h₂]
    simp only
    simp [hps, pwFalsy]

theorem claim_C10_witness :
    connect (some "") ⟨false, false, false⟩
        ⟨true, [REv.line "bn", REv.line "Password: now"], [], []⟩ =
      (Except.error ConnErr.passwordRequired, ⟨true, true, false⟩,
        ⟨true, [], [], []⟩) :=
  (claim_C10 ⟨false, false, false⟩
      ⟨true, [REv.line "bn", REv.line "Password: now"], [], []⟩).2.2
    "bn" "Password: now" [] rfl rfl (by decide) (by decide)

theorem reaches_append {s s' : Sys} (a b : List (Bool × Act))
    (h : Reaches s (a ++ b) s') : ∃ m, Reaches s a m ∧ Reaches m b s' := by
  induction a generalizing s with
  | nil => exact ⟨s, Reaches.nil s, h⟩
  | cons e es ih =>
    cases h with
    | cons hstep htr =>
      obtain ⟨m, h₁, h₂⟩ := ih htr
      exact ⟨m, Reaches.cons hstep h₁, h₂⟩

/-- While a task holds the lock with its line written but its response not
yet read, the only enabled step in the whole system is that task's read. -/
theorem lstep_of_writing {s s' : Sys} {ev : Bool × Act} {t : Bool}
    (hown : s.owner = some t) (hpc : pcOf s t = 2) (h : LStep s ev s') :
    ev = (t, Act.rd) := by
  cases h with
  | acq t₂ h₁ h₂ => rw [hown] at h₂; cases h₂
  | wr t₂ h₁ h₂ =>
    rw [hown] at h₂
    injection h₂ with ht
    subst ht
    rw [hpc] at h₁
    cases h₁
  | rd t₂ h₁ h₂ =>
    rw [hown] at h₂
    injection h₂ with ht
    subst ht
    rfl
  | rel t₂ h₁ h₂ =>
    rw [hown] at h₂
    injection h₂ with ht
    subst ht
    rw [hpc] at h₁
    cases h₁

/-- Inversion for a write step: the writer owned the lock and advances its
program counter to 2. -/
theorem lstep_wr_inv {s s' : Sys} {t : Bool} (h : LStep s (t, Act.wr) s') :
    s' = setPc s t 2 ∧ s.owner = some t := by
  cases h
  case wr h₁ h₂ => exact ⟨rfl, h₂⟩

/-- C9: two concurrent `_send_command` calls never interleave on the wire:
in any valid trace, between one task's write and the other task's write,
the first task's response read occurs — its full command round-trip
completes before the other command's write begins. -/
theorem claim_C9 (s₀ sF : Sys) (t t' : Bool) (l₁ l₂ l₃ : List (Bool × Act))
    (hne : t ≠ t')
    (h : Reaches s₀ (l₁ ++ ((t, Act.wr) :: (l₂ ++ (t', Act.wr) :: l₃))) sF) :
    (t, Act.rd) ∈ l₂ := by
  obtain ⟨m, hm, h₂⟩ := reaches_append l₁ _ h
  cases h₂ with
  | cons hstep htr =>
    obtain ⟨hs₂, hown⟩ := lstep_wr_inv hstep
    subst hs₂
    have hown' : (setPc m t 2).owner = some t := by
      cases t <;> simpa [setPc] using hown
    have hpc' : pcOf (setPc m t 2) t = 2 := by
      cases t <;> simp [pcOf, setPc]
    cases l₂ with
    | nil =>
      cases htr with
      | cons hstep' htr' =>
        have he := lstep_of_writing hown' hpc' hstep'
        injection he with he₁ he₂
        exact absurd he₁.symm hne
    | cons e es =>
      cases htr with
      | cons hstep' htr' =>
        have he := lstep_of_writing hown' hpc' hstep'
        subst he
        exact List.mem_cons_self _ _

theorem claim_C9_witness :
    (false, Act.rd) ∈ [(false, Act.rd), (false, Act.rel), (true, Act.acquire)] :=
  claim_C9 ⟨none, 0, 0⟩ ⟨none, 4, 4⟩ false true
    [(false, Act.acquire)]
    [(false, Act.rd), (false, Act.rel), (true, Act.acquire)]
    [(true, Act.rd), (true, Act.rel)]
    (by decide)
    (Reaches.cons (LStep.acq _ false rfl rfl)
      (Reaches.cons (LStep.wr _ false rfl rfl)
        (Reaches.cons (LStep.rd _ false rfl rfl)
          (Reaches.cons (LStep.rel _ false rfl rfl)
            (Reaches.cons (LStep.acq _ true rfl rfl)
              (Reaches.cons (LStep.wr _ true rfl rfl)
                (Reaches.cons (LStep.rd _ true rfl rfl)
                  (Reaches.cons (LStep.rel _ true rfl rfl)
                    (Reaches.nil _)))))))))

end ExtronMav
